import Mathlib

/-!
Shallow embedding of the hys-manage-web front-end core:
the ProTable request adapter (src/utils/proTableRequest.ts) and the
ImageUpload widget's validation and dialog handlers
(src/components/ImageUpload/index.tsx).

JavaScript runtime values are modelled by the inductive `JsValue`;
objects are association lists of string keys (JS object keys are unique,
lookup takes the first match).  `undefined` and `null` are distinct
constructors, as in JS.  Numbers are modelled as `Int` (the claims under
study never involve fractional values or NaN).
-/

/-- A JavaScript runtime value. -/
inductive JsValue where
  | vUndef : JsValue
  | vNull : JsValue
  | vBool (b : Bool) : JsValue
  | vNum (n : Int) : JsValue
  | vStr (s : String) : JsValue
  | vArr (elems : List JsValue) : JsValue
  | vObj (fields : List (String × JsValue)) : JsValue

namespace JsValue

/-- JS truthiness: `undefined`, `null`, `false`, `0` and the empty string
are falsy, everything else is truthy (NaN does not arise in this model). -/
def truthy : JsValue → Bool
  | vUndef => false
  | vNull => false
  | vBool b => b
  | vNum n => n != 0
  | vStr s => s ≠ ""
  | vArr _ => true
  | vObj _ => true

/-- `v == null` in JS: true exactly for `null` and `undefined`. -/
def isNullish : JsValue → Bool
  | vUndef => true
  | vNull => true
  | _ => false

/-- JS `typeof v === 'object'` (true for objects, arrays and `null`). -/
def isObjectTypeof : JsValue → Bool
  | vNull => true
  | vObj _ => true
  | vArr _ => true
  | _ => false

end JsValue

open JsValue

/-- Lookup of a key in a JS object field list (first match, as JS object
keys are unique). -/
def objGet (fields : List (String × JsValue)) (k : String) : Option JsValue :=
  fields.lookup k

/-- Remove a key from a JS object field list. -/
def objRemove (k : String) (fields : List (String × JsValue)) :
    List (String × JsValue) :=
  fields.filter (fun p => p.1 ≠ k)

/-- Overwrite-or-append assignment `{...o, [k]: v}`: the result looks up
`k` to `v` and every other key as in `o`. -/
def objSet (fields : List (String × JsValue)) (k : String) (v : JsValue) :
    List (String × JsValue) :=
  objRemove k fields ++ [(k, v)]

/-- One step of property access `value[key]` as performed inside
`getValueByPath` (the `value == null` / non-object guards included):
nullish or primitive values yield `undefined`; objects look the key up;
arrays expose their elements under canonical numeric-string keys. -/
def pathStep (v : JsValue) (key : String) : JsValue :=
  match v with
  | vObj fields => (objGet fields key).getD vUndef
  | vArr elems =>
      match key.toNat? with
      | some i => if key = toString i then (elems.get? i).getD vUndef else vUndef
      | none => vUndef
  | _ => vUndef

/-- `String.prototype.split('.')` on the character list: splitting the
empty string gives `[""]`, every dot starts a new segment.  This is the
JS split used on the configured path. -/
def splitDotChars : List Char → List String
  | [] => [""]
  | c :: rest =>
      let tailSplit := splitDotChars rest
      if c = '.' then "" :: tailSplit
      else
        match tailSplit with
        | s :: ss => String.mk (c :: s.data) :: ss
        | [] => [String.mk [c]]

/-- `path.split('.')` of the source. -/
def jsSplitDot (path : String) : List String :=
  splitDotChars path.data

/-- `getValueByPath` from src/utils/proTableRequest.ts: split the dotted
path and perform sequential property lookup; any nullish or
non-indexable intermediate value makes the whole resolution yield
`undefined` (`pathStep` keeps returning `undefined` from then on, which
matches the early `return undefined`). -/
def getValueByPath (obj : JsValue) (path : String) : JsValue :=
  (jsSplitDot path).foldl pathStep obj

/-- The default parameter transform of `createProTableRequest`:
`const { current, pageSize, ...restParams } = params` followed by
`{ ...restParams, page: current, per: pageSize }` with the default
target names.  A missing `current`/`pageSize` becomes `undefined`. -/
def transformParamsDefault (params : List (String × JsValue)) :
    List (String × JsValue) :=
  let rest := params.filter (fun p => p.1 ≠ "current" && p.1 ≠ "pageSize")
  let cur := (objGet params "current").getD vUndef
  let ps := (objGet params "pageSize").getD vUndef
  objSet (objSet rest "page" cur) "per" ps

/-- The flat result object `{data, success, total}` the adapter hands to
the grid.  All three fields are kept as raw JS values: the code
guarantees by construction that `data` is an array and `total` a number,
and those guarantees are proved as theorems rather than baked into the
type. -/
structure ProTableResult where
  data : JsValue
  success : JsValue
  total : JsValue

/-- The catch-branch result `{data: [], success: false, total: 0}`. -/
def failureResult : ProTableResult :=
  { data := vArr [], success := vBool false, total := vNum 0 }

/-- The injected API function: it may return a value or throw/reject
(`Except.error` carries the thrown value). -/
def ApiFunction : Type := JsValue → Except JsValue JsValue

/-- `const data = getValueByPath(response, 'data.list') || []` followed
by `Array.isArray(data) ? data : []`. -/
def adaptData (response : JsValue) : JsValue :=
  let dataRaw := getValueByPath response "data.list"
  let dataV := if dataRaw.truthy then dataRaw else vArr []
  match dataV with
  | vArr xs => vArr xs
  | _ => vArr []

/-- `const total = getValueByPath(response, 'data.total') || 0` followed
by `typeof total === 'number' ? total : 0`. -/
def adaptTotal (response : JsValue) : JsValue :=
  let totalRaw := getValueByPath response "data.total"
  let totalV := if totalRaw.truthy then totalRaw else vNum 0
  match totalV with
  | vNum n => vNum n
  | _ => vNum 0

/-- `response.success ?? true` (the response is known non-nullish, so the
member access is plain property lookup). -/
def adaptSuccess (response : JsValue) : JsValue :=
  let succRaw := pathStep response "success"
  if succRaw.isNullish then vBool true else succRaw

/-- The default response transform (adapter body, the
non-custom-transform branch, lines 203-211 of proTableRequest.ts): the
three fields of the returned object literal, each read by path with the
truthiness default and the `Array.isArray` / `typeof` coercion of the
source.  Only applied to a non-nullish response (a nullish one already
threw at `response.data`). -/
def adaptResponseDefault (response : JsValue) : ProTableResult :=
  { data := adaptData response
    success := adaptSuccess response
    total := adaptTotal response }

/-- The request function produced by `createProTableRequest` with the
default options, applied to one parameter object.  The whole body runs
in a `try`/`catch`; in the default configuration the only expressions
that can throw after the awaited call are the member accesses
`response.data` / `response.success`, which throw exactly when
`response` is nullish.  `getValueByPath` itself never throws. -/
def proTableRequest (api : ApiFunction) (params : List (String × JsValue)) :
    ProTableResult :=
  match api (vObj (transformParamsDefault params)) with
  | .error _ => failureResult
  | .ok response =>
      if response.isNullish then
        -- `const responseData = response.data` throws; caught below.
        failureResult
      else
        adaptResponseDefault response

/-!
ImageUpload widget (src/components/ImageUpload/index.tsx).  The file
holds the multi-capable component (with `maxCount`) and a single-image
component; both share `validateFileType` and `handleCancel` verbatim and
differ in `handleConfirm`.
-/

/-- A browser `File` as seen by the validation gates: name, size in
bytes and the browser-reported MIME type (the empty string models an
absent/falsy `file.type`, as JS treats `""` as no type). -/
structure JsFile where
  name : String
  type : String
  size : Nat

/-- The `mimeTypeMap` table of `validateFileType`; an extension outside
the table yields `[]` (the source's `mimeTypeMap[fileExtension] || []`). -/
def mimeTypeMap (ext : String) : List String :=
  if ext = "png" then ["image/png"]
  else if ext = "jpeg" then ["image/jpeg", "image/jpg"]
  else if ext = "jpg" then ["image/jpeg", "image/jpg"]
  else if ext = "svg" then ["image/svg+xml"]
  else []

/-- `String.prototype.toLowerCase()`, written on the character list so
concrete instances evaluate. -/
def jsToLower (s : String) : String :=
  String.mk (s.data.map Char.toLower)

/-- The characters after the LAST dot of a character list; `none` when
no dot occurs (`lastIndexOf` returning `-1`). -/
def extAfterLastDot : List Char → Option (List Char)
  | [] => none
  | c :: rest =>
      match extAfterLastDot rest with
      | some e => some e
      | none => if c = '.' then some rest else none

/-- Extension extraction of `validateFileType`: lower-case the name and
take the substring after the last dot
(`fileName.substring(lastDotIndex + 1)`); `none` when the name has no
dot. -/
def fileExtension? (name : String) : Option String :=
  (extAfterLastDot (jsToLower name).data).map String.mk

/-- `validateFileType` from the ImageUpload component (identical in both
variants): extension gate (a dot must exist and the extension must be in
`allowedExtensions`, case-insensitively), then the MIME gate, applied
only when the file carries a reported type: the type must be a member of
the mapped list for the extension (empty for unmapped extensions). -/
def validateFileType (allowedExtensions : List String) (file : JsFile) : Bool :=
  match fileExtension? file.name with
  | none => false
  | some fileExtension =>
      if ! allowedExtensions.any (fun ext => jsToLower ext == fileExtension) then
        false
      else if file.type ≠ "" then
        (mimeTypeMap fileExtension).any (fun mime => file.type == mime)
      else
        true

/-- Upload status of an antd `UploadFile` entry. -/
inductive FileStatus where
  | uploading
  | done
  | error
  | removed
  deriving DecidableEq, Repr

/-- One `fileList` entry: identity, status and the resolved URL
(absent until the upload succeeded). -/
structure FileEntry where
  uid : String
  status : Option FileStatus
  url : Option String
  deriving DecidableEq, Repr

/-- `file.status === 'done'` as a Bool. -/
def isDone (f : FileEntry) : Bool :=
  f.status = some FileStatus.done

/-- `file.status === 'uploading'` as a Bool. -/
def isUploading (f : FileEntry) : Bool :=
  f.status = some FileStatus.uploading

/-- JS truthiness of `file.url`: set and non-empty. -/
def urlTruthy (f : FileEntry) : Bool :=
  match f.url with
  | some u => u ≠ ""
  | none => false

/-- The confirm filter `file.status === 'done' && file.url`. -/
def confirmEligible (f : FileEntry) : Bool :=
  isDone f && urlTruthy f

/-- The value handed to the `onChange`/`onSuccess` callbacks:
a bare URL string, a URL array, or `undefined` (`allUrls[0]` of an
empty array). -/
inductive UrlValue where
  | str (u : String)
  | arr (us : List String)
  | undef
  deriving DecidableEq, Repr

/-- Dialog-relevant state of the multi-capable component:
`modalVisible`, the in-flight `fileList` and the committed `imageUrls`. -/
structure WidgetState where
  modalVisible : Bool
  fileList : List FileEntry
  imageUrls : List String
  deriving DecidableEq, Repr

/-- `handleConfirm` of the multi-capable component: collect the URLs of
`done` entries with a truthy `url` (`file.url!` modelled by `getD ""`,
never hit on an unset url since the filter requires it truthy); when at
least one exists, merge with the committed urls, truncate to `maxCount`,
collapse to a bare string when `maxCount === 1`, commit, clear the file
list and close the dialog.  The second component models the single value
passed to both `onChange` and `onSuccess`; `none` means neither callback
was invoked. -/
def handleConfirm (maxCount : Nat) (s : WidgetState) :
    WidgetState × Option UrlValue :=
  let newUploadedFiles := (s.fileList.filter confirmEligible).map
    (fun f => f.url.getD "")
  if 0 < newUploadedFiles.length then
    let allUrls := (s.imageUrls ++ newUploadedFiles).take maxCount
    let result := if maxCount = 1 then
        match allUrls with
        | u :: _ => UrlValue.str u
        | [] => UrlValue.undef
      else UrlValue.arr allUrls
    ({ modalVisible := false, fileList := [], imageUrls := allUrls },
      some result)
  else
    (s, none)

/-- `handleCancel` (identical in both variants): when no entry is
`uploading`, clear the file list and close the dialog; otherwise do
nothing. -/
def handleCancel (s : WidgetState) : WidgetState :=
  if s.fileList.any isUploading then s
  else { s with fileList := [], modalVisible := false }

/-- Dialog-relevant state of the single-image component: the committed
value is a single optional URL. -/
structure SingleWidgetState where
  modalVisible : Bool
  fileList : List FileEntry
  imageUrl : Option String
  deriving DecidableEq, Repr

/-- `handleConfirm` of the single-image component:
`fileList.find(file => file.status === 'done' && file.url)`, then commit
that entry's URL, clear the list and close the dialog; otherwise do
nothing (the found entry always passes the `uploadedFile?.url` re-check
since the find predicate already required a truthy url). -/
def singleHandleConfirm (s : SingleWidgetState) :
    SingleWidgetState × Option UrlValue :=
  match s.fileList.find? confirmEligible with
  | some f =>
      if urlTruthy f then
        ({ modalVisible := false, fileList := [],
           imageUrl := some (f.url.getD "") },
          some (UrlValue.str (f.url.getD "")))
      else (s, none)
  | none => (s, none)

/-- `handleCancel` of the single-image component (same code as the
multi-capable one). -/
def singleHandleCancel (s : SingleWidgetState) : SingleWidgetState :=
  if s.fileList.any isUploading then s
  else { s with fileList := [], modalVisible := false }

/-!
Helper lemmas about association-list lookup, used to reason about the
object operations of the parameter transform.
-/

theorem lookup_cons_unfold (k a : String) (v : JsValue)
    (t : List (String × JsValue)) :
    ((a, v) :: t).lookup k = if k == a then some v else t.lookup k := by
  simp only [List.lookup]
  split <;> simp_all

theorem lookup_append_of_none {l1 : List (String × JsValue)} {k : String}
    (l2 : List (String × JsValue)) (h : l1.lookup k = none) :
    (l1 ++ l2).lookup k = l2.lookup k := by
  induction l1 with
  | nil => simp
  | cons a t ih =>
      obtain ⟨a1, a2⟩ := a
      rw [List.cons_append, lookup_cons_unfold]
      rw [lookup_cons_unfold] at h
      by_cases hk : k == a1
      · simp [hk] at h
      · simp only [hk, if_false] at h ⊢
        exact ih h

theorem lookup_append_of_some {l1 : List (String × JsValue)} {k : String}
    {v : JsValue} (l2 : List (String × JsValue)) (h : l1.lookup k = some v) :
    (l1 ++ l2).lookup k = some v := by
  induction l1 with
  | nil => simp at h
  | cons a t ih =>
      obtain ⟨a1, a2⟩ := a
      rw [List.cons_append, lookup_cons_unfold]
      rw [lookup_cons_unfold] at h
      by_cases hk : k == a1
      · simpa [hk] using h
      · simp only [hk, if_false] at h ⊢
        exact ih h

theorem lookup_filter_key (π : String → Bool) (l : List (String × JsValue))
    (k : String) (hk : π k = true) :
    (l.filter (fun q => π q.1)).lookup k = l.lookup k := by
  induction l with
  | nil => simp
  | cons a t ih =>
      obtain ⟨a1, a2⟩ := a
      by_cases hk1 : k == a1
      · have ha1 : π a1 = true := by
          rw [← eq_of_beq hk1]; exact hk
        rw [List.filter_cons]
        simp only [ha1, if_true, lookup_cons_unfold, hk1, if_true]
      · rw [List.filter_cons]
        by_cases ha1 : π a1 = true
        · simp only [ha1, if_true, lookup_cons_unfold, hk1, if_false]
          exact ih
        · simp only [Bool.not_eq_true] at ha1
          simp only [ha1, Bool.false_eq_true, if_false, lookup_cons_unfold,
            hk1, if_false]
          exact ih

theorem lookup_filter_key_none (π : String → Bool)
    (l : List (String × JsValue)) (k : String) (hk : π k = false) :
    (l.filter (fun q => π q.1)).lookup k = none := by
  induction l with
  | nil => simp
  | cons a t ih =>
      obtain ⟨a1, a2⟩ := a
      rw [List.filter_cons]
      by_cases ha1 : π a1 = true
      · have hk1 : (k == a1) = false := by
          by_contra hcon
          simp only [Bool.not_eq_false] at hcon
          rw [eq_of_beq hcon, ha1] at hk
          simp at hk
        simp only [ha1, if_true, lookup_cons_unfold, hk1, if_false]
        exact ih
      · simp only [Bool.not_eq_true] at ha1
        simp only [ha1, Bool.false_eq_true, if_false]
        exact ih

theorem objGet_objSet_self (l : List (String × JsValue)) (k : String)
    (v : JsValue) : objGet (objSet l k v) k = some v := by
  unfold objGet objSet objRemove
  rw [lookup_append_of_none]
  · rw [lookup_cons_unfold]
    simp
  · exact lookup_filter_key_none (fun x => decide (x ≠ k)) l k (by simp)

theorem objGet_objSet_ne (l : List (String × JsValue)) {k k' : String}
    (v : JsValue) (h : k' ≠ k) :
    objGet (objSet l k v) k' = objGet l k' := by
  unfold objGet objSet objRemove
  have hfil : (l.filter (fun p => decide (p.1 ≠ k))).lookup k' = l.lookup k' :=
    lookup_filter_key (fun x => decide (x ≠ k)) l k' (by simp [h])
  cases h2 : l.lookup k' with
  | none =>
      rw [lookup_append_of_none]
      · rw [lookup_cons_unfold]
        simp [h]
      · rw [hfil]; exact h2
  | some w =>
      rw [lookup_append_of_some]
      rw [hfil]; exact h2

theorem transformParamsDefault_page (params : List (String × JsValue)) :
    objGet (transformParamsDefault params) "page" =
      some ((objGet params "current").getD vUndef) := by
  unfold transformParamsDefault
  rw [objGet_objSet_ne _ _ (by decide)]
  exact objGet_objSet_self _ _ _

theorem transformParamsDefault_per (params : List (String × JsValue)) :
    objGet (transformParamsDefault params) "per" =
      some ((objGet params "pageSize").getD vUndef) := by
  unfold transformParamsDefault
  exact objGet_objSet_self _ _ _

theorem transformParamsDefault_current (params : List (String × JsValue)) :
    objGet (transformParamsDefault params) "current" = none := by
  unfold transformParamsDefault
  rw [objGet_objSet_ne _ _ (by decide), objGet_objSet_ne _ _ (by decide)]
  exact lookup_filter_key_none
    (fun x => decide (x ≠ "current") && decide (x ≠ "pageSize")) params
    "current" (by decide)

theorem transformParamsDefault_pageSize (params : List (String × JsValue)) :
    objGet (transformParamsDefault params) "pageSize" = none := by
  unfold transformParamsDefault
  rw [objGet_objSet_ne _ _ (by decide), objGet_objSet_ne _ _ (by decide)]
  exact lookup_filter_key_none
    (fun x => decide (x ≠ "current") && decide (x ≠ "pageSize")) params
    "pageSize" (by decide)

theorem transformParamsDefault_preserved (params : List (String × JsValue))
    (k : String) (h1 : k ≠ "current") (h2 : k ≠ "pageSize") (h3 : k ≠ "page")
    (h4 : k ≠ "per") :
    objGet (transformParamsDefault params) k = objGet params k := by
  unfold transformParamsDefault
  rw [objGet_objSet_ne _ _ h4, objGet_objSet_ne _ _ h3]
  exact lookup_filter_key
    (fun x => decide (x ≠ "current") && decide (x ≠ "pageSize")) params
    k (by simp [h1, h2])

theorem proTableRequest_throw {api : ApiFunction}
    {params : List (String × JsValue)} {e : JsValue}
    (h : api (vObj (transformParamsDefault params)) = Except.error e) :
    proTableRequest api params = failureResult := by
  unfold proTableRequest
  rw [h]

theorem proTableRequest_ok {api : ApiFunction}
    {params : List (String × JsValue)} {response : JsValue}
    (h : api (vObj (transformParamsDefault params)) = Except.ok response) :
    proTableRequest api params =
      if response.isNullish then failureResult
      else adaptResponseDefault response := by
  unfold proTableRequest
  rw [h]

/-- C1: for every injected API function and every input, if the awaited
backend call rejects or throws, the request function produced by
`createProTableRequest` resolves (it never rejects: the model is a total
function) to exactly `{data: [], success: false, total: 0}`. -/
theorem c1_failure_absorbed (api : ApiFunction)
    (params : List (String × JsValue)) (e : JsValue)
    (h : api (vObj (transformParamsDefault params)) = Except.error e) :
    proTableRequest api params =
      { data := vArr [], success := vBool false, total := vNum 0 } :=
  proTableRequest_throw h

/-- Witness for C1 at a concrete always-throwing API function. -/
theorem c1_failure_absorbed_witness :
    proTableRequest (fun _ => Except.error (vStr "network down")) [] =
      { data := vArr [], success := vBool false, total := vNum 0 } :=
  c1_failure_absorbed (fun _ => Except.error (vStr "network down")) []
    (vStr "network down") rfl

/-- C2 counterexample: the request
`{current: 2, pageSize: 15, page: 99}` satisfies `current ≥ 1` and
`pageSize > 0`, yet its extra field `page` is not passed through with
its value unchanged — the injected pagination value overwrites it. -/
theorem c2_collision_counterexample :
    objGet [("current", vNum 2), ("pageSize", vNum 15), ("page", vNum 99)]
        "current" = some (vNum 2) ∧
    (1 : Int) ≤ 2 ∧
    objGet [("current", vNum 2), ("pageSize", vNum 15), ("page", vNum 99)]
        "pageSize" = some (vNum 15) ∧
    (0 : Int) < 15 ∧
    objGet [("current", vNum 2), ("pageSize", vNum 15), ("page", vNum 99)]
        "page" = some (vNum 99) ∧
    objGet (transformParamsDefault
        [("current", vNum 2), ("pageSize", vNum 15), ("page", vNum 99)])
        "page" = some (vNum 2) ∧
    (some (vNum 2) : Option JsValue) ≠ some (vNum 99) := by
  refine ⟨rfl, by norm_num, rfl, by norm_num, rfl, rfl, ?_⟩
  simp

/-- C2 (amended): for every request with `current ≥ 1` and
`pageSize > 0`, the default transform renames `current` to `page` and
`pageSize` to `per`, and passes every other field through unchanged
provided its name is not one of the injected target names `page`/`per`
(a request field named `page` or `per` is overwritten); in particular
`{current: 2, pageSize: 15, name: 'cardio'}` produces
`{name: 'cardio', page: 2, per: 15}`. -/
theorem c2_param_transform (params : List (String × JsValue)) (c p : Int)
    (hc : objGet params "current" = some (vNum c)) (hc1 : 1 ≤ c)
    (hp : objGet params "pageSize" = some (vNum p)) (hp1 : 0 < p) :
    objGet (transformParamsDefault params) "page" = some (vNum c) ∧
    objGet (transformParamsDefault params) "per" = some (vNum p) ∧
    objGet (transformParamsDefault params) "current" = none ∧
    objGet (transformParamsDefault params) "pageSize" = none ∧
    (∀ k, k ≠ "current" → k ≠ "pageSize" → k ≠ "page" → k ≠ "per" →
      objGet (transformParamsDefault params) k = objGet params k) ∧
    transformParamsDefault
        [("current", vNum 2), ("pageSize", vNum 15), ("name", vStr "cardio")] =
      [("name", vStr "cardio"), ("page", vNum 2), ("per", vNum 15)] := by
  refine ⟨?_, ?_, transformParamsDefault_current params,
    transformParamsDefault_pageSize params,
    fun k h1 h2 h3 h4 => transformParamsDefault_preserved params k h1 h2 h3 h4,
    rfl⟩
  · rw [transformParamsDefault_page, hc]; rfl
  · rw [transformParamsDefault_per, hp]; rfl

/-- Witness for C2 (amended) at the request of the spec's example. -/
theorem c2_param_transform_witness :
    objGet (transformParamsDefault
        [("current", vNum 2), ("pageSize", vNum 15), ("name", vStr "cardio")])
      "page" = some (vNum 2) ∧
    objGet (transformParamsDefault
        [("current", vNum 2), ("pageSize", vNum 15), ("name", vStr "cardio")])
      "name" = some (vStr "cardio") :=
  ⟨(c2_param_transform
      [("current", vNum 2), ("pageSize", vNum 15), ("name", vStr "cardio")]
      2 15 rfl (by norm_num) rfl (by norm_num)).1,
   (c2_param_transform
      [("current", vNum 2), ("pageSize", vNum 15), ("name", vStr "cardio")]
      2 15 rfl (by norm_num) rfl (by norm_num)).2.2.2.2.1
     "name" (by decide) (by decide) (by decide) (by decide)⟩

theorem proTableRequest_ok_of_notNullish {api : ApiFunction}
    {params : List (String × JsValue)} {response : JsValue}
    (h : api (vObj (transformParamsDefault params)) = Except.ok response)
    (hnn : response.isNullish = false) :
    proTableRequest api params = adaptResponseDefault response := by
  rw [proTableRequest_ok h]
  simp [hnn]

theorem adaptData_arr (response : JsValue) :
    ∃ xs, adaptData response = vArr xs := by
  unfold adaptData
  rcases getValueByPath response "data.list" with _ | _ | b | n | s | xs | fs
  · exact ⟨[], rfl⟩
  · exact ⟨[], rfl⟩
  · cases b
    · exact ⟨[], rfl⟩
    · exact ⟨[], rfl⟩
  · rcases Bool.eq_false_or_eq_true ((vNum n).truthy) with h | h <;>
      simp only [JsValue.truthy] at h <;> simp [JsValue.truthy, h]
  · rcases Bool.eq_false_or_eq_true ((vStr s).truthy) with h | h <;>
      simp only [JsValue.truthy] at h <;> simp [JsValue.truthy, h]
  · exact ⟨xs, rfl⟩
  · exact ⟨[], rfl⟩

theorem adaptTotal_num (response : JsValue) :
    ∃ n : Int, adaptTotal response = vNum n := by
  unfold adaptTotal
  rcases getValueByPath response "data.total" with _ | _ | b | n | s | xs | fs
  · exact ⟨0, rfl⟩
  · exact ⟨0, rfl⟩
  · cases b
    · exact ⟨0, rfl⟩
    · exact ⟨0, rfl⟩
  · rcases Bool.eq_false_or_eq_true ((vNum n).truthy) with h | h <;>
      simp only [JsValue.truthy] at h <;> simp [JsValue.truthy, h]
  · rcases Bool.eq_false_or_eq_true ((vStr s).truthy) with h | h <;>
      simp only [JsValue.truthy] at h <;> simp [JsValue.truthy, h]
  · exact ⟨0, rfl⟩
  · exact ⟨0, rfl⟩

theorem adaptData_of_not_arr (response : JsValue)
    (h : ∀ xs, getValueByPath response "data.list" ≠ vArr xs) :
    adaptData response = vArr [] := by
  unfold adaptData
  rcases hg : getValueByPath response "data.list" with _ | _ | b | n | s | xs | fs
  · rfl
  · rfl
  · cases b
    · rfl
    · rfl
  · rcases Bool.eq_false_or_eq_true ((vNum n).truthy) with hb | hb <;>
      simp only [JsValue.truthy] at hb <;> simp [JsValue.truthy, hb]
  · rcases Bool.eq_false_or_eq_true ((vStr s).truthy) with hb | hb <;>
      simp only [JsValue.truthy] at hb <;> simp [JsValue.truthy, hb]
  · exact absurd hg (h xs)
  · rfl

theorem adaptTotal_of_undef (response : JsValue)
    (h : getValueByPath response "data.total" = vUndef) :
    adaptTotal response = vNum 0 := by
  unfold adaptTotal
  rw [h]
  rfl

theorem adaptData_of_falsy (response : JsValue)
    (h : (getValueByPath response "data.list").truthy = false) :
    adaptData response = vArr [] := by
  dsimp only [adaptData]
  rw [h]
  rfl

theorem adaptTotal_of_falsy (response : JsValue)
    (h : (getValueByPath response "data.total").truthy = false) :
    adaptTotal response = vNum 0 := by
  dsimp only [adaptTotal]
  rw [h]
  rfl

theorem adaptSuccess_of_absent (response : JsValue)
    (h : (pathStep response "success").isNullish = true) :
    adaptSuccess response = vBool true := by
  dsimp only [adaptSuccess]
  rw [h]
  rfl

/-- C3 counterexample: the backend resolves without throwing with the
malformed payload `{}` (an empty object, carrying none of the expected
envelope), yet the adapter returns `{data: [], success: true, total: 0}`:
the success flag is `true`, so the malformation is not surfaced via
`success: false` as the claim requires. -/
theorem c3_malformed_counterexample :
    proTableRequest (fun _ => Except.ok (vObj [])) [] =
      { data := vArr [], success := vBool true, total := vNum 0 } ∧
    (vBool true : JsValue) ≠ vBool false := by
  constructor
  · rfl
  · simp

/-- C3 (amended): a malformed payload the backend call returns without
throwing (no truthy `data.list` or `data.total` and no `success` field)
yields `{data: [], success: true, total: 0}` — empty data and zero
total, but `success` stays `true`; `success: false` arises only when the
backend call or the adaptation itself throws. -/
theorem c3_malformed_payload (api : ApiFunction)
    (params : List (String × JsValue)) (response : JsValue)
    (hcall : api (vObj (transformParamsDefault params)) = Except.ok response)
    (hnn : response.isNullish = false)
    (hdata : (getValueByPath response "data.list").truthy = false)
    (htotal : (getValueByPath response "data.total").truthy = false)
    (hsucc : (pathStep response "success").isNullish = true) :
    proTableRequest api params =
      { data := vArr [], success := vBool true, total := vNum 0 } := by
  rw [proTableRequest_ok_of_notNullish hcall hnn]
  unfold adaptResponseDefault
  rw [adaptData_of_falsy response hdata, adaptTotal_of_falsy response htotal,
    adaptSuccess_of_absent response hsucc]

/-- Witness for C3 (amended) at the empty-object payload. -/
theorem c3_malformed_payload_witness :
    proTableRequest (fun _ => Except.ok (vObj [])) [] =
      { data := vArr [], success := vBool true, total := vNum 0 } :=
  c3_malformed_payload (fun _ => Except.ok (vObj [])) [] (vObj [])
    rfl rfl rfl rfl rfl

/-- C4 counterexample: the response `{data: {list: [], total: -1}}`
adapts to `total = -1`, a negative number, refuting "the total field is
a non-negative integer". -/
theorem c4_negative_total_counterexample :
    (proTableRequest (fun _ => Except.ok
        (vObj [("data", vObj [("list", vArr []), ("total", vNum (-1))])]))
      []).total = vNum (-1) ∧
    (-1 : Int) < 0 := by
  constructor
  · rfl
  · norm_num

/-- C4 (amended): for every backend interaction the adapter result has a
`data` field that is an array, a `total` field that is a number — zero
when the field is missing or non-numeric, but possibly negative since
the upstream number is passed through — and a `success` field that is
`true` when the upstream success field is absent and `false` whenever
the backend call or the adaptation throws (the member access on a
nullish response). -/
theorem c4_result_shape :
    (∀ (api : ApiFunction) (params : List (String × JsValue)),
      ∃ xs, (proTableRequest api params).data = vArr xs) ∧
    (∀ (api : ApiFunction) (params : List (String × JsValue)),
      ∃ n : Int, (proTableRequest api params).total = vNum n) ∧
    (∀ (api : ApiFunction) (params : List (String × JsValue))
      (response : JsValue),
      api (vObj (transformParamsDefault params)) = Except.ok response →
      response.isNullish = false →
      (pathStep response "success").isNullish = true →
      (proTableRequest api params).success = vBool true) ∧
    (∀ (api : ApiFunction) (params : List (String × JsValue)) (e : JsValue),
      api (vObj (transformParamsDefault params)) = Except.error e →
      (proTableRequest api params).success = vBool false) ∧
    (∀ (api : ApiFunction) (params : List (String × JsValue))
      (response : JsValue),
      api (vObj (transformParamsDefault params)) = Except.ok response →
      response.isNullish = true →
      (proTableRequest api params).success = vBool false) := by
  refine ⟨?_, ?_, ?_, ?_, ?_⟩
  · intro api params
    cases hcall : api (vObj (transformParamsDefault params)) with
    | error e =>
        rw [proTableRequest_throw hcall]
        exact ⟨[], rfl⟩
    | ok response =>
        rw [proTableRequest_ok hcall]
        cases hnn : response.isNullish
        · simp only [Bool.false_eq_true, if_false]
          exact adaptData_arr response
        · simp only [if_true]
          exact ⟨[], rfl⟩
  · intro api params
    cases hcall : api (vObj (transformParamsDefault params)) with
    | error e =>
        rw [proTableRequest_throw hcall]
        exact ⟨0, rfl⟩
    | ok response =>
        rw [proTableRequest_ok hcall]
        cases hnn : response.isNullish
        · simp only [Bool.false_eq_true, if_false]
          exact adaptTotal_num response
        · simp only [if_true]
          exact ⟨0, rfl⟩
  · intro api params response hcall hnn hsucc
    rw [proTableRequest_ok_of_notNullish hcall hnn]
    exact adaptSuccess_of_absent response hsucc
  · intro api params e hcall
    rw [proTableRequest_throw hcall]
    rfl
  · intro api params response hcall hnn
    rw [proTableRequest_ok hcall, hnn]
    rfl

/-- Witness for C4 (amended), instantiated at a throwing call, a nullish
response, and a well-formed response without a success field. -/
theorem c4_result_shape_witness :
    (∃ xs, (proTableRequest (fun _ => Except.ok
        (vObj [("data", vObj [("list", vArr [vNum 1]), ("total", vNum 1)])]))
      []).data = vArr xs) ∧
    (∃ n : Int, (proTableRequest (fun _ => Except.ok (vObj [])) []).total
      = vNum n) ∧
    (proTableRequest (fun _ => Except.ok (vObj [])) []).success = vBool true ∧
    (proTableRequest (fun _ => Except.error vNull) []).success = vBool false ∧
    (proTableRequest (fun _ => Except.ok vNull) []).success = vBool false :=
  ⟨c4_result_shape.1 _ [],
   c4_result_shape.2.1 _ [],
   c4_result_shape.2.2.1 _ [] (vObj []) rfl rfl rfl,
   c4_result_shape.2.2.2.1 _ [] vNull rfl,
   c4_result_shape.2.2.2.2 _ [] vNull rfl rfl⟩

/-- C6: for every response the backend returns, a missing `data.total`
(path resolution yields `undefined`) adapts to `total = 0`, and a
`data.list` that is absent or not an array adapts to `data = []`; path
resolution is sequential property lookup on the dotted path, and yields
`undefined` when any intermediate value is absent (`undefined`), `null`,
or not an indexable structure (a primitive, or an object without the
key). -/
theorem c6_path_resolution :
    (∀ (api : ApiFunction) (params : List (String × JsValue))
      (response : JsValue),
      api (vObj (transformParamsDefault params)) = Except.ok response →
      getValueByPath response "data.total" = vUndef →
      (proTableRequest api params).total = vNum 0) ∧
    (∀ (api : ApiFunction) (params : List (String × JsValue))
      (response : JsValue),
      api (vObj (transformParamsDefault params)) = Except.ok response →
      (∀ xs, getValueByPath response "data.list" ≠ vArr xs) →
      (proTableRequest api params).data = vArr []) ∧
    (∀ obj : JsValue,
      getValueByPath obj "data.list" = pathStep (pathStep obj "data") "list" ∧
      getValueByPath obj "data.total" = pathStep (pathStep obj "data") "total") ∧
    (∀ key : String, pathStep vUndef key = vUndef ∧ pathStep vNull key = vUndef) ∧
    (∀ (key : String) (b : Bool) (n : Int) (s : String),
      pathStep (vBool b) key = vUndef ∧ pathStep (vNum n) key = vUndef ∧
      pathStep (vStr s) key = vUndef) ∧
    (∀ (fields : List (String × JsValue)) (key : String),
      objGet fields key = none → pathStep (vObj fields) key = vUndef) := by
  refine ⟨?_, ?_, ?_, ?_, ?_, ?_⟩
  · intro api params response hcall htot
    rw [proTableRequest_ok hcall]
    cases hnn : response.isNullish
    · simp only [Bool.false_eq_true, if_false]
      exact adaptTotal_of_undef response htot
    · simp only [if_true]
      rfl
  · intro api params response hcall hlist
    rw [proTableRequest_ok hcall]
    cases hnn : response.isNullish
    · simp only [Bool.false_eq_true, if_false]
      exact adaptData_of_not_arr response hlist
    · simp only [if_true]
      rfl
  · intro obj
    exact ⟨rfl, rfl⟩
  · intro key
    exact ⟨rfl, rfl⟩
  · intro key b n s
    exact ⟨rfl, rfl, rfl⟩
  · intro fields key h
    simp [pathStep, h]

/-- Witness for C6 at a response whose `data` field is a number (so both
paths resolve to `undefined` through a non-indexable intermediate). -/
theorem c6_path_resolution_witness :
    (proTableRequest (fun _ => Except.ok (vObj [("data", vNum 7)])) []).total
      = vNum 0 ∧
    (proTableRequest (fun _ => Except.ok (vObj [("data", vNum 7)])) []).data
      = vArr [] ∧
    pathStep (vObj ([] : List (String × JsValue))) "list" = vUndef :=
  ⟨c6_path_resolution.1 _ [] (vObj [("data", vNum 7)]) rfl rfl,
   c6_path_resolution.2.1 _ [] (vObj [("data", vNum 7)]) rfl
     (fun xs h => JsValue.noConfusion h),
   c6_path_resolution.2.2.2.2.2 [] "list" rfl⟩

/-- C5 counterexample: with `allowedExtensions = ['gif']`, the file
`a.gif` with reported type `image/gif` passes the extension gate, and
its extension maps to no known set in the table
(`mimeTypeMap 'gif' = []`, the table only maps png/jpeg/jpg/svg), yet
the MIME gate rejects the file — contradicting "rejects only when ...
the extension maps to a known set of acceptable MIME strings". -/
theorem c5_unmapped_extension_counterexample :
    fileExtension? "a.gif" = some "gif" ∧
    (["gif"] : List String).any (fun e => jsToLower e == "gif") = true ∧
    mimeTypeMap "gif" = [] ∧
    validateFileType ["gif"]
      { name := "a.gif", type := "image/gif", size := 10 } = false := by
  exact ⟨rfl, rfl, rfl, rfl⟩

/-- C5 (amended): for every file admitted past the extension gate, the
MIME gate rejects it exactly when the file carries a reported MIME type
and that type is not in the extension's mapped set — where the table
png→[image/png], jpeg/jpg→[image/jpeg, image/jpg], svg→[image/svg+xml]
maps any other extension to the empty set, so a typed file with an
admitted but unmapped extension is always rejected; a file with no
reported type skips the MIME gate and passes. -/
theorem c5_mime_gate (allowedExtensions : List String) (file : JsFile)
    (ext : String) (hext : fileExtension? file.name = some ext)
    (hallow : allowedExtensions.any (fun e => jsToLower e == ext) = true) :
    validateFileType allowedExtensions file = false ↔
      file.type ≠ "" ∧ file.type ∉ mimeTypeMap ext := by
  unfold validateFileType
  rw [hext]
  simp only [hallow, Bool.not_true, Bool.false_eq_true, if_false]
  by_cases ht : file.type = ""
  · simp [ht]
  · simp only [ht, ne_eq, not_false_eq_true, if_true]
    constructor
    · intro hany
      refine ⟨trivial, fun hmem => ?_⟩
      have : (mimeTypeMap ext).any (fun mime => file.type == mime) = true :=
        List.any_eq_true.mpr ⟨file.type, hmem, by simp⟩
      rw [this] at hany
      exact Bool.true_eq_false.mp hany
    · rintro ⟨-, hnotmem⟩
      rw [Bool.eq_false_iff]
      intro hany
      obtain ⟨x, hx, hbeq⟩ := List.any_eq_true.mp hany
      exact hnotmem (by rw [eq_of_beq hbeq]; exact hx)

/-- Witness for C5 (amended) at a mapped extension with matching type
(not rejected) — the hypotheses are discharged by evaluation. -/
theorem c5_mime_gate_witness :
    (validateFileType ["png"]
        { name := "a.png", type := "image/png", size := 1 } = false ↔
      ("image/png" : String) ≠ "" ∧
        ("image/png" : String) ∉ mimeTypeMap "png") :=
  c5_mime_gate ["png"] { name := "a.png", type := "image/png", size := 1 }
    "png" rfl rfl

/-!
Helper lemmas for the confirm/cancel handlers.
-/

theorem confirmEligible_status {f : FileEntry} (h : confirmEligible f = true) :
    f.status = some FileStatus.done := by
  unfold confirmEligible isDone at h
  exact of_decide_eq_true ((Bool.and_eq_true _ _).mp h).1

theorem confirmEligible_url {f : FileEntry} (h : confirmEligible f = true) :
    urlTruthy f = true :=
  ((Bool.and_eq_true _ _).mp h).2

theorem confirmEligible_of_done_url {f : FileEntry}
    (hd : f.status = some FileStatus.done) (hu : urlTruthy f = true) :
    confirmEligible f = true := by
  unfold confirmEligible isDone
  rw [hu, hd]
  simp

theorem no_done_filter (l : List FileEntry)
    (h : ∀ f ∈ l, f.status ≠ some FileStatus.done) :
    l.filter confirmEligible = [] :=
  List.filter_eq_nil_iff.mpr fun f hf hc => h f hf (confirmEligible_status hc)

theorem no_done_find (l : List FileEntry)
    (h : ∀ f ∈ l, f.status ≠ some FileStatus.done) :
    l.find? confirmEligible = none :=
  List.find?_eq_none.mpr fun f hf hc => h f hf (confirmEligible_status hc)

theorem done_no_url_filter (l : List FileEntry)
    (h : ∀ f ∈ l, f.status = some FileStatus.done → f.url = none) :
    l.filter confirmEligible = [] :=
  List.filter_eq_nil_iff.mpr fun f hf hc => by
    have hu := confirmEligible_url hc
    simp [urlTruthy, h f hf (confirmEligible_status hc)] at hu

theorem done_no_url_find (l : List FileEntry)
    (h : ∀ f ∈ l, f.status = some FileStatus.done → f.url = none) :
    l.find? confirmEligible = none :=
  List.find?_eq_none.mpr fun f hf hc => by
    have hu := confirmEligible_url hc
    simp [urlTruthy, h f hf (confirmEligible_status hc)] at hu

theorem filter_confirmEligible_nil_of_done_nil (l : List FileEntry)
    (h : l.filter isDone = []) : l.filter confirmEligible = [] :=
  List.filter_eq_nil_iff.mpr fun f hf hc =>
    List.filter_eq_nil_iff.mp h f hf
      (by rw [confirmEligible, Bool.and_eq_true] at hc; exact hc.1)

theorem filter_confirmEligible_of_unique_done (l : List FileEntry)
    (e : FileEntry) (hl : l.filter isDone = [e]) (he : urlTruthy e = true) :
    l.filter confirmEligible = [e] := by
  induction l with
  | nil => simp at hl
  | cons a t ih =>
      rw [List.filter_cons] at hl ⊢
      cases hd : isDone a with
      | false =>
          rw [hd] at hl
          simp only [Bool.false_eq_true, if_false] at hl ⊢
          have hca : confirmEligible a = false := by
            unfold confirmEligible
            rw [hd]
            rfl
          rw [hca]
          simp only [Bool.false_eq_true, if_false]
          exact ih hl
      | true =>
          rw [hd] at hl
          simp only [if_true] at hl
          obtain ⟨hae, htl⟩ := List.cons_eq_cons.mp hl
          subst hae
          have hca : confirmEligible a = true :=
            confirmEligible_of_done_url (of_decide_eq_true hd) he
          rw [hca]
          simp only [if_true]
          rw [filter_confirmEligible_nil_of_done_nil t htl]

theorem find?_of_filter_singleton (l : List FileEntry) (e : FileEntry)
    (h : l.filter confirmEligible = [e]) : l.find? confirmEligible = some e := by
  induction l with
  | nil => simp at h
  | cons a t ih =>
      rw [List.filter_cons] at h
      cases hc : confirmEligible a with
      | false =>
          rw [hc] at h
          simp only [Bool.false_eq_true, if_false] at h
          rw [List.find?_cons, hc]
          exact ih h
      | true =>
          rw [hc] at h
          simp only [if_true] at h
          obtain ⟨hae, -⟩ := List.cons_eq_cons.mp h
          rw [List.find?_cons, hc, hae]

/-- C7: in single-image mode (`maxCount = 1` for the multi-capable
component; the dedicated single-image component), pressing Confirm when
exactly one `fileList` entry has status `done` — with the URL its upload
resolved (non-empty) and, in the multi-capable component, nothing
committed yet, the only state in which single mode admits an upload —
sets the committed value to that entry's URL as a bare string (not a
sequence), passes it to the `onChange`/`onSuccess` callbacks, clears
`fileList`, and closes the dialog. -/
theorem c7_confirm_single :
    (∀ (s : WidgetState) (e : FileEntry) (u : String),
      s.fileList.filter isDone = [e] → e.url = some u → u ≠ "" →
      s.imageUrls = [] →
      handleConfirm 1 s =
        ({ modalVisible := false, fileList := [], imageUrls := [u] },
          some (UrlValue.str u))) ∧
    (∀ (s : SingleWidgetState) (e : FileEntry) (u : String),
      s.fileList.filter isDone = [e] → e.url = some u → u ≠ "" →
      singleHandleConfirm s =
        ({ modalVisible := false, fileList := [], imageUrl := some u },
          some (UrlValue.str u))) := by
  constructor
  · intro s e u hfil hurl hne himg
    have hut : urlTruthy e = true := by
      unfold urlTruthy
      rw [hurl]
      simpa using hne
    have helig : s.fileList.filter confirmEligible = [e] :=
      filter_confirmEligible_of_unique_done _ e hfil hut
    unfold handleConfirm
    rw [helig, himg]
    simp only [List.map_cons, List.map_nil, hurl, Option.getD_some]
    rfl
  · intro s e u hfil hurl hne
    have hut : urlTruthy e = true := by
      unfold urlTruthy
      rw [hurl]
      simpa using hne
    have helig : s.fileList.filter confirmEligible = [e] :=
      filter_confirmEligible_of_unique_done _ e hfil hut
    unfold singleHandleConfirm
    rw [find?_of_filter_singleton _ e helig]
    dsimp only
    rw [hut, hurl]
    rfl

/-- Witness for C7 at a one-entry file list holding a finished upload. -/
theorem c7_confirm_single_witness :
    handleConfirm 1
        { modalVisible := true,
          fileList := [{ uid := "f1", status := some FileStatus.done,
                         url := some "https://cdn/x.png" }],
          imageUrls := [] } =
      ({ modalVisible := false, fileList := [],
         imageUrls := ["https://cdn/x.png"] },
        some (UrlValue.str "https://cdn/x.png")) ∧
    singleHandleConfirm
        { modalVisible := true,
          fileList := [{ uid := "f1", status := some FileStatus.done,
                         url := some "https://cdn/x.png" }],
          imageUrl := none } =
      ({ modalVisible := false, fileList := [],
         imageUrl := some "https://cdn/x.png" },
        some (UrlValue.str "https://cdn/x.png")) :=
  ⟨c7_confirm_single.1 _
      { uid := "f1", status := some FileStatus.done,
        url := some "https://cdn/x.png" }
      "https://cdn/x.png" rfl rfl (by decide) rfl,
   c7_confirm_single.2 _
      { uid := "f1", status := some FileStatus.done,
        url := some "https://cdn/x.png" }
      "https://cdn/x.png" rfl rfl (by decide)⟩

/-- C8: pressing Confirm when no `fileList` entry has status `done` is a
no-op in both components: the state (dialog visibility, file list,
committed value) is returned unchanged and no callback value is
produced. -/
theorem c8_confirm_noop :
    (∀ (maxCount : Nat) (s : WidgetState),
      (∀ f ∈ s.fileList, f.status ≠ some FileStatus.done) →
      handleConfirm maxCount s = (s, none)) ∧
    (∀ s : SingleWidgetState,
      (∀ f ∈ s.fileList, f.status ≠ some FileStatus.done) →
      singleHandleConfirm s = (s, none)) := by
  constructor
  · intro maxCount s h
    unfold handleConfirm
    rw [no_done_filter s.fileList h]
    rfl
  · intro s h
    unfold singleHandleConfirm
    rw [no_done_find s.fileList h]

/-- Witness for C8 at a dialog holding one still-uploading entry. -/
theorem c8_confirm_noop_witness :
    handleConfirm 3
        { modalVisible := true,
          fileList := [{ uid := "f1", status := some FileStatus.uploading,
                         url := none }],
          imageUrls := ["https://cdn/old.png"] } =
      ({ modalVisible := true,
         fileList := [{ uid := "f1", status := some FileStatus.uploading,
                        url := none }],
         imageUrls := ["https://cdn/old.png"] }, none) ∧
    singleHandleConfirm
        { modalVisible := true,
          fileList := [{ uid := "f1", status := some FileStatus.error,
                         url := none }],
          imageUrl := some "https://cdn/old.png" } =
      ({ modalVisible := true,
         fileList := [{ uid := "f1", status := some FileStatus.error,
                        url := none }],
         imageUrl := some "https://cdn/old.png" }, none) :=
  ⟨c8_confirm_noop.1 3 _ (by decide), c8_confirm_noop.2 _ (by decide)⟩

/-- C9: Cancel closes the dialog and discards `fileList` without touching
the committed value exactly when no entry has status `uploading`; while
at least one entry is `uploading`, Cancel leaves the state unchanged
(the dialog does not close and the file list is not discarded).  Both
components behave identically. -/
theorem c9_cancel_guard :
    (∀ s : WidgetState,
      (s.fileList.any isUploading = false →
        handleCancel s =
          { modalVisible := false, fileList := [], imageUrls := s.imageUrls }) ∧
      (s.fileList.any isUploading = true → handleCancel s = s)) ∧
    (∀ s : SingleWidgetState,
      (s.fileList.any isUploading = false →
        singleHandleCancel s =
          { modalVisible := false, fileList := [], imageUrl := s.imageUrl }) ∧
      (s.fileList.any isUploading = true → singleHandleCancel s = s)) := by
  constructor
  · intro s
    constructor
    · intro h
      unfold handleCancel
      rw [h]
      rfl
    · intro h
      unfold handleCancel
      rw [h]
      rfl
  · intro s
    constructor
    · intro h
      unfold singleHandleCancel
      rw [h]
      rfl
    · intro h
      unfold singleHandleCancel
      rw [h]
      rfl

/-- Witness for C9: a quiet dialog cancels to a closed, cleared state
with the committed value intact; an uploading dialog is left as it is. -/
theorem c9_cancel_guard_witness :
    handleCancel
        { modalVisible := true,
          fileList := [{ uid := "f1", status := some FileStatus.done,
                         url := some "https://cdn/x.png" }],
          imageUrls := ["https://cdn/old.png"] } =
      { modalVisible := false, fileList := [],
        imageUrls := ["https://cdn/old.png"] } ∧
    handleCancel
        { modalVisible := true,
          fileList := [{ uid := "f2", status := some FileStatus.uploading,
                         url := none }],
          imageUrls := ["https://cdn/old.png"] } =
      { modalVisible := true,
        fileList := [{ uid := "f2", status := some FileStatus.uploading,
                       url := none }],
        imageUrls := ["https://cdn/old.png"] } :=
  ⟨(c9_cancel_guard.1 _).1 (by decide), (c9_cancel_guard.1 _).2 (by decide)⟩

/-- C10: Confirm commits only entries with status `done` AND a set,
non-empty `url`: a `done` entry without a url contributes nothing to the
committed value or the callback value, and when every `done` entry lacks
a url, Confirm is a no-op (dialog open, nothing committed, no callback)
even though `done` entries exist — in both components. -/
theorem c10_confirm_requires_url :
    (∀ (maxCount : Nat) (s : WidgetState) (l1 l2 : List FileEntry)
      (e : FileEntry),
      e.status = some FileStatus.done → e.url = none →
      s.fileList = l1 ++ e :: l2 →
      (handleConfirm maxCount s).1.imageUrls =
        (handleConfirm maxCount { s with fileList := l1 ++ l2 }).1.imageUrls ∧
      (handleConfirm maxCount s).2 =
        (handleConfirm maxCount { s with fileList := l1 ++ l2 }).2) ∧
    (∀ (maxCount : Nat) (s : WidgetState),
      (∀ f ∈ s.fileList, f.status = some FileStatus.done → f.url = none) →
      handleConfirm maxCount s = (s, none)) ∧
    (∀ s : SingleWidgetState,
      (∀ f ∈ s.fileList, f.status = some FileStatus.done → f.url = none) →
      singleHandleConfirm s = (s, none)) := by
  refine ⟨?_, ?_, ?_⟩
  · intro maxCount s l1 l2 e hst hurl hs
    have hce : confirmEligible e = false := by
      unfold confirmEligible urlTruthy isDone
      rw [hurl]
      simp
    have hfeq : (l1 ++ e :: l2).filter confirmEligible =
        (l1 ++ l2).filter confirmEligible := by
      rw [List.filter_append, List.filter_cons, hce]
      simp only [Bool.false_eq_true, if_false]
      rw [List.filter_append]
    unfold handleConfirm
    rw [hs]
    dsimp only
    rw [hfeq]
    split
    · exact ⟨rfl, rfl⟩
    · exact ⟨rfl, rfl⟩
  · intro maxCount s h
    unfold handleConfirm
    rw [done_no_url_filter s.fileList h]
    rfl
  · intro s h
    unfold singleHandleConfirm
    rw [done_no_url_find s.fileList h]

/-- Witness for C10: a `done` entry without a url alongside a `done`
entry with one contributes nothing; a file list whose only `done`
entries lack urls makes Confirm a no-op although `done` entries exist. -/
theorem c10_confirm_requires_url_witness :
    ((handleConfirm 5
        { modalVisible := true,
          fileList :=
            [{ uid := "bad", status := some FileStatus.done, url := none },
             { uid := "good", status := some FileStatus.done,
               url := some "https://cdn/x.png" }],
          imageUrls := [] }).1.imageUrls =
      (handleConfirm 5
        { modalVisible := true,
          fileList := [{ uid := "good", status := some FileStatus.done,
                         url := some "https://cdn/x.png" }],
          imageUrls := [] }).1.imageUrls ∧
     (handleConfirm 5
        { modalVisible := true,
          fileList :=
            [{ uid := "bad", status := some FileStatus.done, url := none },
             { uid := "good", status := some FileStatus.done,
               url := some "https://cdn/x.png" }],
          imageUrls := [] }).2 =
      (handleConfirm 5
        { modalVisible := true,
          fileList := [{ uid := "good", status := some FileStatus.done,
                         url := some "https://cdn/x.png" }],
          imageUrls := [] }).2) ∧
    handleConfirm 2
        { modalVisible := true,
          fileList := [{ uid := "bad", status := some FileStatus.done,
                         url := none }],
          imageUrls := [] } =
      ({ modalVisible := true,
         fileList := [{ uid := "bad", status := some FileStatus.done,
                        url := none }],
         imageUrls := [] }, none) ∧
    singleHandleConfirm
        { modalVisible := true,
          fileList := [{ uid := "bad", status := some FileStatus.done,
                         url := none }],
          imageUrl := none } =
      ({ modalVisible := true,
         fileList := [{ uid := "bad", status := some FileStatus.done,
                        url := none }],
         imageUrl := none }, none) :=
  ⟨c10_confirm_requires_url.1 5 _ []
      [{ uid := "good", status := some FileStatus.done,
         url := some "https://cdn/x.png" }]
      { uid := "bad", status := some FileStatus.done, url := none }
      rfl rfl rfl,
   c10_confirm_requires_url.2.1 2 _ (by decide),
   c10_confirm_requires_url.2.2 _ (by decide)⟩
